import Mathlib

/-!
# Verification of the babyagi task loop (`src/babyagi.py`)

A shallow embedding of the core task loop and its four agents.  Pure string
processing (the model-response parsers, the embedding input normalisation) is
translated directly; the stateful main loop is modelled as a step function on
an explicit `LoopState`, with the language-model responses supplied as an
oracle (the model is an external collaborator).  Python `str` values are
modelled as Lean `String`; the helper functions below reproduce the exact
semantics of the Python string operations used by the source
(`str.split(sep)`, `str.split(sep, 1)`, `str.strip()`, `int(...)`,
`str.replace`).
-/

namespace BabyAGI

/-! ## Python string primitives -/

/-- The ASCII whitespace characters stripped by Python's `str.strip()`
(space, tab, newline, carriage return, vertical tab, form feed). -/
def isPyWhitespace (c : Char) : Bool :=
  c = ' ' || c = '\t' || c = '\n' || c = '\r' || c = '\x0b' || c = '\x0c'

/-- Python `s.strip()`: remove leading and trailing whitespace. -/
def pyStrip (s : String) : String :=
  ⟨((s.data.dropWhile isPyWhitespace).reverse.dropWhile isPyWhitespace).reverse⟩

/-- Split a character list at every occurrence of `sep`, returning the first
segment and the list of remaining segments (so the total number of segments is
one more than the number of separators). -/
def splitSegs (sep : Char) : List Char → List Char × List (List Char)
  | [] => ([], [])
  | c :: cs =>
    let (h, t) := splitSegs sep cs
    if c = sep then ([], h :: t) else (c :: h, t)

/-- Python `s.split(sep)` for a single-character separator: every occurrence
of `sep` is a split point and empty segments are kept. -/
def pySplit (sep : Char) (s : String) : List String :=
  let (h, t) := splitSegs sep s.data
  (⟨h⟩ : String) :: t.map (fun cs => (⟨cs⟩ : String))

/-- Python `s.split(sep, 1)` for a single-character separator: if `sep`
occurs, the result is the two parts around its first occurrence; otherwise
the singleton `[s]`. -/
def pySplitOnFirst (sep : Char) (s : String) : List String :=
  if s.data.contains sep then
    [⟨s.data.takeWhile (· ≠ sep)⟩, ⟨(s.data.dropWhile (· ≠ sep)).tail⟩]
  else
    [s]

/-- Value accumulator for `pythonParseInt`: consumes the digit part of a
Python integer literal, where single underscores may separate digits
(`digit ('_'? digit)*`). `acc` is the value of the digits already read. -/
def pyIntDigitsGo (acc : Nat) : List Char → Option Nat
  | [] => some acc
  | '_' :: d :: rest =>
    if d.isDigit then pyIntDigitsGo (acc * 10 + (d.toNat - 48)) rest else none
  | '_' :: [] => none
  | d :: rest =>
    if d.isDigit then pyIntDigitsGo (acc * 10 + (d.toNat - 48)) rest else none

/-- The digit part of a Python integer literal: nonempty, starts with a
digit, single underscores allowed between digits. -/
def pyIntDigits : List Char → Option Nat
  | [] => none
  | d :: rest => if d.isDigit then pyIntDigitsGo (d.toNat - 48) rest else none

/-- Python `int(s)` for a base-10 string: strips surrounding whitespace,
accepts one optional `+`/`-` sign, then digits with optional single
underscores between them; returns `none` where Python raises `ValueError`. -/
def pythonParseInt (s : String) : Option Int :=
  match (pyStrip s).data with
  | '+' :: rest => (pyIntDigits rest).map (fun n => (n : Int))
  | '-' :: rest => (pyIntDigits rest).map (fun n => -(n : Int))
  | rest => (pyIntDigits rest).map (fun n => (n : Int))

/-! ## Data model -/

/-- A task id as it exists at runtime: an `Int` when assigned by the loop's
counter (or the seed task's literal `1`), a `String` when adopted verbatim
from the Prioritization Agent's parse of the model output. -/
inductive TaskId where
  | ofInt (n : Int)
  | ofStr (s : String)
  deriving DecidableEq, Repr

/-- Python `str(task_id)`: the string form used in `f"result_{task['task_id']}"`
and in printing. -/
def TaskId.idStr : TaskId → String
  | .ofInt n => toString n
  | .ofStr s => s

/-- Python `int(task_id)`: an `int` converts to itself, a string is parsed
with `pythonParseInt`; `none` models the `ValueError` raised on a
non-parseable string. -/
def TaskId.toInt : TaskId → Option Int
  | .ofInt n => some n
  | .ofStr s => pythonParseInt s

/-- A queue entry: `{"task_id": ..., "task_name": ...}`. -/
structure Task where
  task_id : TaskId
  task_name : String
  deriving DecidableEq, Repr

/-- A task as returned by `task_creation_agent`: `{"task_name": ...}`, no id
yet (the loop assigns ids). -/
structure NewTask where
  task_name : String
  deriving DecidableEq, Repr

/-! ## `get_ada_embedding` (line 138-140)

`text = text.replace("\n", " ")` — a single-character pattern replace, i.e. a
character map.  We model the embedding of a text by the normalised text
itself (the numeric vector is external); what the source determines is which
string is sent to the embedding endpoint. -/

/-- The string actually submitted to the embedding model:
`text.replace("\n", " ")`. -/
def get_ada_embedding (text : String) : String :=
  ⟨text.data.map (fun c => if c = '\n' then ' ' else c)⟩

/-! ## `task_creation_agent` (lines 168-172)

`new_tasks = response.split('\n'); return [{"task_name": t} for t in new_tasks]`.
The prompt construction and the model call are external; the function's
observable behaviour is how it turns the model response into tasks. -/

/-- The task list `task_creation_agent` builds from the model response. -/
def task_creation_agent (response : String) : List NewTask :=
  (pySplit '\n' response).map (fun task_name => { task_name := task_name })

/-! ## `prioritization_agent` parsing (lines 183-190)

`response.split('\n')`; each line is stripped and split on the first `.`;
only lines yielding exactly two parts become tasks, with both parts
stripped. -/

/-- The loop body of lines 185-190 for one `task_string`: `some` task when
`task_string.strip().split(".", 1)` has exactly two parts, `none` (the line
is dropped) otherwise. -/
def parsePriorityLine (task_string : String) : Option Task :=
  match pySplitOnFirst '.' (pyStrip task_string) with
  | [a, b] => some { task_id := .ofStr (pyStrip a), task_name := pyStrip b }
  | _ => none

/-- The replacement queue `prioritization_agent` builds from the model
response. -/
def prioritization_agent (response : String) : List Task :=
  (pySplit '\n' response).filterMap parsePriorityLine

/-! ## `context_agent` (lines 200-208)

The store query is external; its return value is a sequence of matches, each
with a similarity `score` and a `task` metadata field.  The float score is
modelled as a rational (only its ordering matters).  The agent re-sorts with
`sorted(results.matches, key=lambda x: x.score, reverse=True)` — a stable
sort by descending score — and projects `str(item.metadata['task'])`. -/

/-- One match returned by the Memory Store query. -/
structure QueryMatch where
  score : Rat
  task : String
  deriving DecidableEq, Repr

/-- The projection `context_agent` applies to the matches the store returned
(`results.matches` in the source; `matches` is a Lean keyword). -/
def context_agent (results : List QueryMatch) : List String :=
  (results.mergeSort (fun x y => decide (y.score ≤ x.score))).map
    (fun item => item.task)

/-! ## Memory Store

`index.upsert([(result_id, vector, metadata)])` (line 241).  The store is the
external Pinecone index; per its interface (spec §6) `upsert` creates the
record or overwrites the record with the same id.  We model the store as an
association list and the embedding vector by the normalised text that was
embedded. -/

/-- A stored record: the embedded (normalised) text standing in for the
vector, and the `{task, result}` metadata. -/
structure MemRecord where
  vector : String
  task : String
  result : String
  deriving DecidableEq, Repr

/-- Upsert: overwrite the record whose id matches, or append a new one. -/
def upsert (store : List (String × MemRecord)) (id : String) (r : MemRecord) :
    List (String × MemRecord) :=
  if store.any (fun p => p.1 = id) then
    store.map (fun p => if p.1 = id then (id, r) else p)
  else
    store ++ [(id, r)]

/-! ## Main loop (lines 210-252)

State: the deque `task_list` (popleft = head, append = snoc), the counter
`task_id_counter`, and the Memory Store contents.  The three model responses
consumed in one iteration (execution, task creation, prioritization) are an
oracle, since the language model is external. -/

/-- The model responses consumed by one loop iteration. -/
structure Oracle where
  execResponse : String
  creationResponse : String
  prioResponse : String

/-- The exception a loop iteration can raise: `ValueError` from
`int(task["task_id"])` at line 233. -/
inductive PyError where
  | valueError
  deriving DecidableEq, Repr

/-- Observable steps of one iteration, in the order they are performed.
`append i` records one task being appended with assigned id `i`. -/
inductive Ev where
  | pop
  | execute
  | store
  | create
  | append (id : Nat)
  | prioritize
  | sleep
  deriving DecidableEq, Repr

/-- Recognise an `append` event. -/
def Ev.isAppend : Ev → Bool
  | .append _ => true
  | _ => false

/-- The loop's mutable state. -/
structure LoopState where
  task_list : List Task
  task_id_counter : Nat
  store : List (String × MemRecord)
  deriving DecidableEq, Repr

/-- The `for new_task in new_tasks` loop (lines 246-249): increment the
counter, assign it as the id.  Returns the final counter and the
`(task_id, task_name)` pairs in append order. -/
def assignIds (counter : Nat) : List NewTask → Nat × List (Nat × String)
  | [] => (counter, [])
  | t :: ts =>
    let (c', rest) := assignIds (counter + 1) ts
    (c', (counter + 1, t.task_name) :: rest)

/-- One pass of the `while True:` body (lines 219-252), returning the trace
of observable steps and either the next state or the raised exception. -/
def iterate (o : Oracle) (s : LoopState) : List Ev × Except PyError LoopState :=
  match s.task_list with
  | [] =>
    -- Empty queue: fall through to `time.sleep(1)` (line 252) and re-check.
    ([.sleep], .ok s)
  | task :: rest =>
    -- Step 1: `task = task_list.popleft()` (line 227).
    -- `result = execution_agent(...)` (line 232) runs before the conversion
    -- `this_task_id = int(task["task_id"])` (line 233).
    let result := o.execResponse
    match task.task_id.toInt with
    | none => ([.pop, .execute], .error .valueError)
    | some this_task_id =>
      -- Step 2: store the enriched result (lines 238-241).
      let result_id := "result_" ++ task.task_id.idStr
      let store' := upsert s.store result_id
        { vector := get_ada_embedding result, task := task.task_name,
          result := result }
      -- Step 3: create new tasks (line 244); `rest` supplies the
      -- incomplete-task names of the prompt.
      let new_tasks := task_creation_agent o.creationResponse
      let assigned := assignIds s.task_id_counter new_tasks
      -- `prioritization_agent(this_task_id)` (line 250) reads
      -- `rest ++ assigned.2` only to build its prompt, then replaces the
      -- queue wholesale with its parse of the model response.
      let _ := (this_task_id, rest)
      let queue' := prioritization_agent o.prioResponse
      ( [.pop, .execute, .store, .create]
          ++ assigned.2.map (fun p => .append p.1) ++ [.prioritize, .sleep],
        .ok { task_list := queue', task_id_counter := assigned.1,
              store := store' } )

/-- Run `n` passes of the loop body, with `os i` the model responses of pass
`i`; traces are concatenated and an exception aborts the run. -/
def runN (os : Nat → Oracle) : Nat → LoopState → List Ev × Except PyError LoopState
  | 0, s => ([], .ok s)
  | n + 1, s =>
    match iterate (os 0) s with
    | (tr, .error e) => (tr, .error e)
    | (tr, .ok s') =>
      (tr ++ (runN (fun i => os (i + 1)) n s').1,
       (runN (fun i => os (i + 1)) n s').2)

/-- The ids carried by the `append` events of a trace, in order. -/
def appendIds (tr : List Ev) : List Nat :=
  tr.filterMap (fun e => match e with | .append i => some i | _ => none)

/-- The startup state (lines 210-218): the seed task with literal id `1`,
`task_id_counter = 1`, and an empty store. -/
def initialState (initial_task : String) : LoopState :=
  { task_list := [{ task_id := .ofInt 1, task_name := initial_task }],
    task_id_counter := 1,
    store := [] }

/-! ## Helper lemmas -/

/-- Membership in `dropWhile p` is membership, for an element not satisfying
`p`: `dropWhile` only removes a prefix of elements satisfying `p`. -/
theorem mem_dropWhile_of_pred_false {α : Type} (p : α → Bool) (a : α)
    (h : p a = false) : ∀ l : List α, a ∈ l.dropWhile p ↔ a ∈ l
  | [] => by simp
  | x :: xs => by
    rw [List.dropWhile_cons]
    split
    · rename_i hx
      rw [mem_dropWhile_of_pred_false p a h xs, List.mem_cons]
      constructor
      · exact Or.inr
      · rintro (rfl | hm)
        · rw [hx] at h; cases h
        · exact hm
    · exact Iff.rfl

/-- Rewrite `List.contains` to a decidable membership. -/
theorem contains_eq_decide_mem (l : List Char) (c : Char) :
    l.contains c = decide (c ∈ l) := by
  simp [List.contains_eq_any_beq]

/-- Stripping preserves occurrences of any non-whitespace character. -/
theorem mem_pyStrip_iff {c : Char} (h : isPyWhitespace c = false) (s : String) :
    c ∈ (pyStrip s).data ↔ c ∈ s.data := by
  show c ∈ ((s.data.dropWhile _).reverse.dropWhile _).reverse ↔ _
  rw [List.mem_reverse, mem_dropWhile_of_pred_false _ _ h, List.mem_reverse,
    mem_dropWhile_of_pred_false _ _ h]

/-- A line parses to a task precisely when it contains a `.` character:
`split(".", 1)` yields two parts exactly when the separator occurs, and
stripping cannot add or remove a `.`. -/
theorem parsePriorityLine_isSome_iff (line : String) :
    ((parsePriorityLine line).isSome = true) ↔ '.' ∈ line.data := by
  rw [← @mem_pyStrip_iff '.' (by decide) line]
  unfold parsePriorityLine pySplitOnFirst
  rw [contains_eq_decide_mem]
  by_cases h : '.' ∈ (pyStrip line).data
  · simp [h]
  · simp [h]

/-- The length of a `filterMap` is the number of elements the function
accepts. -/
theorem length_filterMap_eq {α β : Type} (f : α → Option β) :
    ∀ l : List α,
      (l.filterMap f).length = (l.filter (fun a => (f a).isSome)).length
  | [] => rfl
  | x :: xs => by
    rw [List.filterMap_cons, List.filter_cons]
    cases hfx : f x <;>
      simp [hfx, length_filterMap_eq f xs]

/-- The number of later segments produced by `splitSegs` is the number of
separator occurrences. -/
theorem splitSegs_snd_length (sep : Char) :
    ∀ cs : List Char, (splitSegs sep cs).2.length = cs.count sep
  | [] => by simp [splitSegs]
  | c :: cs => by
    rw [List.count_cons]
    by_cases hc : c = sep <;>
      simp [splitSegs, hc, splitSegs_snd_length sep cs]

/-- Python `split` produces one more segment than there are separators. -/
theorem pySplit_length (sep : Char) (s : String) :
    (pySplit sep s).length = s.data.count sep + 1 := by
  rw [pySplit]
  simp [splitSegs_snd_length]

/-- In one more step: a line's parse succeeds iff the line contains `.`,
as a Boolean equation usable under `filter_congr`. -/
theorem parsePriorityLine_isSome_eq_contains (line : String) :
    (parsePriorityLine line).isSome = line.data.contains '.' := by
  rw [contains_eq_decide_mem]
  by_cases h : '.' ∈ line.data
  · simp [h, (parsePriorityLine_isSome_iff line).mpr h]
  · simp only [h, decide_False]
    by_cases h' : (parsePriorityLine line).isSome = true
    · exact absurd ((parsePriorityLine_isSome_iff line).mp h') h
    · simpa using h'

/-- Step equation: an empty queue makes the iteration just sleep and leave
the state untouched. -/
theorem iterate_nil (o : Oracle) (s : LoopState) (hq : s.task_list = []) :
    iterate o s = ([.sleep], .ok s) := by
  simp [iterate, hq]

/-- Step equation: a popped task whose id fails `int(...)` raises after the
execution call. -/
theorem iterate_cons_err (o : Oracle) (s : LoopState) (task : Task)
    (rest : List Task) (hq : s.task_list = task :: rest)
    (hid : task.task_id.toInt = none) :
    iterate o s = ([.pop, .execute], .error .valueError) := by
  simp [iterate, hq, hid]

/-- Step equation: the successful iteration body. -/
theorem iterate_cons_ok (o : Oracle) (s : LoopState) (task : Task)
    (rest : List Task) (v : Int) (hq : s.task_list = task :: rest)
    (hid : task.task_id.toInt = some v) :
    iterate o s =
      ( [.pop, .execute, .store, .create]
          ++ (assignIds s.task_id_counter
                (task_creation_agent o.creationResponse)).2.map
              (fun p => .append p.1)
          ++ [.prioritize, .sleep],
        .ok { task_list := prioritization_agent o.prioResponse,
              task_id_counter :=
                (assignIds s.task_id_counter
                  (task_creation_agent o.creationResponse)).1,
              store := upsert s.store ("result_" ++ task.task_id.idStr)
                { vector := get_ada_embedding o.execResponse,
                  task := task.task_name,
                  result := o.execResponse } } ) := by
  simp [iterate, hq, hid]

/-- Id assignment: the `for` loop of lines 246-249 assigns the consecutive
ids `counter+1, ..., counter+k` and leaves the counter at `counter+k`. -/
theorem assignIds_spec :
    ∀ (ts : List NewTask) (c : Nat),
      (assignIds c ts).1 = c + ts.length ∧
      (assignIds c ts).2.map Prod.fst = List.range' (c + 1) ts.length
  | [], c => by simp [assignIds]
  | t :: ts, c => by
    have ih := assignIds_spec ts (c + 1)
    refine ⟨?_, ?_⟩
    · simp [assignIds, ih.1]
      omega
    · simp [assignIds, ih.2, List.range'_succ]

/-- Trace concatenation splits `appendIds`. -/
theorem appendIds_append (l1 l2 : List Ev) :
    appendIds (l1 ++ l2) = appendIds l1 ++ appendIds l2 :=
  List.filterMap_append l1 l2 _

/-- A trace made of appends carries exactly the assigned ids. -/
theorem appendIds_map_append :
    ∀ ps : List (Nat × String),
      appendIds (ps.map (fun p => Ev.append p.1)) = ps.map Prod.fst
  | [] => rfl
  | p :: ps => by
    rw [List.map_cons, List.map_cons]
    show p.1 :: appendIds (ps.map (fun p => Ev.append p.1)) = _
    rw [appendIds_map_append ps]

/-- One iteration appends a consecutive run of ids starting right above the
incoming counter and leaves the counter at its top. -/
theorem iterate_appendIds (o : Oracle) (s : LoopState) :
    ∃ k, appendIds (iterate o s).1 = List.range' (s.task_id_counter + 1) k ∧
      ∀ s', (iterate o s).2 = .ok s' →
        s'.task_id_counter = s.task_id_counter + k := by
  match hq : s.task_list with
  | [] =>
    refine ⟨0, ?_, ?_⟩
    · rw [iterate_nil o s hq]
      rfl
    · intro s' h
      rw [iterate_nil o s hq] at h
      cases h
      rfl
  | task :: rest =>
    cases hid : task.task_id.toInt with
    | none =>
      refine ⟨0, ?_, ?_⟩
      · rw [iterate_cons_err o s task rest hq hid]
        rfl
      · intro s' h
        rw [iterate_cons_err o s task rest hq hid] at h
        cases h
    | some v =>
      refine ⟨(task_creation_agent o.creationResponse).length, ?_, ?_⟩
      · rw [iterate_cons_ok o s task rest v hq hid,
          appendIds_append, appendIds_append, appendIds_map_append,
          (assignIds_spec (task_creation_agent o.creationResponse)
            s.task_id_counter).2,
          show appendIds [Ev.pop, Ev.execute, Ev.store, Ev.create] = []
            from rfl,
          show appendIds [Ev.prioritize, Ev.sleep] = [] from rfl,
          List.nil_append, List.append_nil]
      · intro s' h
        rw [iterate_cons_ok o s task rest v hq hid] at h
        cases h
        exact (assignIds_spec (task_creation_agent o.creationResponse)
          s.task_id_counter).1

/-- Across a whole run, the appended ids are one consecutive ascending run
starting right above the initial counter. -/
theorem runN_appendIds (n : Nat) :
    ∀ (os : Nat → Oracle) (s : LoopState),
      ∃ k, appendIds (runN os n s).1 = List.range' (s.task_id_counter + 1) k := by
  induction n with
  | zero => exact fun os s => ⟨0, rfl⟩
  | succ n ih =>
    intro os s
    obtain ⟨k1, h1, h2⟩ := iterate_appendIds (os 0) s
    cases hit : iterate (os 0) s with
    | mk tr r =>
      rw [hit] at h1
      cases r with
      | error e =>
        refine ⟨k1, ?_⟩
        have hr : runN os (n + 1) s = (tr, .error e) := by
          simp only [runN]
          rw [hit]
        rw [hr]
        exact h1
      | ok s' =>
        obtain ⟨k2, hk2⟩ := ih (fun i => os (i + 1)) s'
        refine ⟨k1 + k2, ?_⟩
        have hr : runN os (n + 1) s =
            (tr ++ (runN (fun i => os (i + 1)) n s').1,
             (runN (fun i => os (i + 1)) n s').2) := by
          simp only [runN]
          rw [hit]
        rw [hr]
        show appendIds (tr ++ (runN (fun i => os (i + 1)) n s').1) = _
        rw [appendIds_append, hk2, h2 s' (by rw [hit]),
          show appendIds tr = List.range' (s.task_id_counter + 1) k1 from h1]
        have happ := List.range'_append (s.task_id_counter + 1) k1 k2 1
        rw [one_mul, Nat.add_comm k2 k1] at happ
        rw [show s.task_id_counter + k1 + 1 = s.task_id_counter + 1 + k1 by
          omega]
        exact happ

/-- Filtering for a key absent from every entry gives nothing. -/
theorem filter_key_absent (id : String) :
    ∀ st : List (String × MemRecord),
      st.any (fun q => decide (q.1 = id)) = false →
      st.filter (fun q => decide (q.1 = id)) = []
  | [], _ => rfl
  | q :: qs, h => by
    simp only [List.any_cons, Bool.or_eq_false_iff] at h
    simp [List.filter_cons, h.1, filter_key_absent id qs h.2]

/-- Overwriting a key that occurs in none of the entries changes nothing
that the key-filter can see. -/
theorem filter_map_overwrite_nil (id : String) (r : MemRecord) :
    ∀ qs : List (String × MemRecord), id ∉ qs.map Prod.fst →
      (qs.map (fun q => if q.1 = id then (id, r) else q)).filter
        (fun q => decide (q.1 = id)) = []
  | [], _ => rfl
  | q :: qs, h => by
    simp only [List.map_cons, List.mem_cons, not_or] at h
    obtain ⟨h1, h2⟩ := h
    rw [List.map_cons, if_neg (fun he => h1 he.symm), List.filter_cons]
    have hd : decide (q.1 = id) = false := decide_eq_false (fun he => h1 he.symm)
    simp [hd, filter_map_overwrite_nil id r qs h2]

/-- With distinct keys, overwriting the entry for `id` leaves exactly one
entry with key `id`: the new one. -/
theorem filter_map_overwrite (id : String) (r : MemRecord) :
    ∀ st : List (String × MemRecord), (st.map Prod.fst).Nodup →
      st.any (fun q => decide (q.1 = id)) = true →
      (st.map (fun q => if q.1 = id then (id, r) else q)).filter
        (fun q => decide (q.1 = id)) = [(id, r)]
  | [], _, hany => by cases hany
  | q :: qs, hnd, hany => by
    rw [List.map_cons, List.nodup_cons] at hnd
    obtain ⟨hnin, hnd'⟩ := hnd
    by_cases hq : q.1 = id
    · rw [List.map_cons, if_pos hq, List.filter_cons]
      simp [filter_map_overwrite_nil id r qs (hq ▸ hnin)]
    · have h1 : decide (q.1 = id) = false := decide_eq_false hq
      have hany' : qs.any (fun q => decide (q.1 = id)) = true := by
        simpa [List.any_cons, h1] using hany
      rw [List.map_cons, if_neg hq, List.filter_cons]
      simp [h1, filter_map_overwrite id r qs hnd' hany']

/-- Upsert semantics: with distinct keys, after `upsert st id r` the entries
with key `id` are exactly `[(id, r)]` — the write creates or overwrites,
never duplicates. -/
theorem upsert_filter_eq (st : List (String × MemRecord)) (id : String)
    (r : MemRecord) (hnd : (st.map Prod.fst).Nodup) :
    (upsert st id r).filter (fun q => decide (q.1 = id)) = [(id, r)] := by
  cases hb : st.any (fun q => decide (q.1 = id)) with
  | true =>
    rw [upsert, if_pos hb]
    exact filter_map_overwrite id r st hnd hb
  | false =>
    rw [upsert, if_neg (by rw [hb]; exact Bool.false_ne_true),
      List.filter_append, filter_key_absent id st hb]
    simp

/-- Upsert semantics: overwriting an existing id does not grow the store. -/
theorem upsert_length_of_present (st : List (String × MemRecord)) (id : String)
    (r : MemRecord) (h : st.any (fun q => decide (q.1 = id)) = true) :
    (upsert st id r).length = st.length := by
  rw [upsert, if_pos h, List.length_map]

/-! ## Claim theorems -/

/-- C1: the Prioritization Agent builds the new queue by splitting the model
response into lines and splitting each stripped line on the first `.`: a
line with exactly two parts yields `{task_id := first part stripped,
task_name := second part stripped}` (so `"3. Clean the kitchen"` yields
task id `"3"`, name `"Clean the kitchen"`), a line that does not split into
two parts (such as `"no period here"`) is silently dropped, and the new
queue's length equals the number of lines containing a `.`, never more than
the number of input lines. -/
theorem prioritization_agent_line_parsing (response : String) :
    prioritization_agent "3. Clean the kitchen" =
      [{ task_id := .ofStr "3", task_name := "Clean the kitchen" }] ∧
    prioritization_agent "no period here" = [] ∧
    (prioritization_agent response).length =
      ((pySplit '\n' response).filter
        (fun line => line.data.contains '.')).length ∧
    (prioritization_agent response).length ≤ (pySplit '\n' response).length := by
  refine ⟨by decide, by decide, ?_, ?_⟩
  · rw [prioritization_agent, length_filterMap_eq]
    exact congrArg List.length
      (List.filter_congr (fun x _ => parsePriorityLine_isSome_eq_contains x))
  · rw [prioritization_agent]
    exact List.length_filterMap_le _ _

/-- C2, counterexample: a response consisting of a single newline has two
lines, both empty, and the Task Creation Agent turns *both* into candidate
tasks — the candidate count is not the non-empty-line count, and an empty
line does become a candidate task. -/
theorem task_creation_agent_counterexample :
    ¬ ((task_creation_agent "\n").length =
        ((pySplit '\n' "\n").filter (fun line => decide (line ≠ ""))).length) ∧
    ({ task_name := "" } : NewTask) ∈ task_creation_agent "\n" := by
  decide

/-- C2, amended: the Task Creation Agent returns exactly one candidate task
per line of the response — including empty lines, which become candidate
tasks with empty names — so the candidate list, projected to names, is
exactly the line list, and its length is the newline count plus one. -/
theorem task_creation_agent_one_task_per_line (response : String) :
    (task_creation_agent response).map (fun t => t.task_name) =
      pySplit '\n' response ∧
    (task_creation_agent response).length = response.data.count '\n' + 1 := by
  constructor
  · rw [task_creation_agent, List.map_map]
    exact List.map_id'' (fun _ => rfl) _
  · rw [task_creation_agent, List.length_map, pySplit_length]

/-- C7: for every sequence of matches the Memory Store returns, the Context
Agent returns exactly the matches re-sorted in descending order of
similarity score and projected to the `task` metadata field, as a flat list
of strings, most relevant first: there is a reordering `l` of the matches,
sorted by descending score, whose `task` projection is the result. -/
theorem context_agent_sorted_desc (results : List QueryMatch) :
    ∃ l : List QueryMatch,
      l.Perm results ∧
      l.Pairwise (fun a b => b.score ≤ a.score) ∧
      context_agent results = l.map (fun item => item.task) := by
  refine ⟨results.mergeSort (fun x y => decide (y.score ≤ x.score)),
    List.mergeSort_perm _ _, ?_, rfl⟩
  have h := @List.sorted_mergeSort QueryMatch
    (fun x y => decide (y.score ≤ x.score))
    (fun a b c hab hbc => by
      simp only [decide_eq_true_eq] at *
      exact le_trans hbc hab)
    (fun a b => by
      simp only [Bool.or_eq_true, decide_eq_true_eq]
      exact le_total b.score a.score)
    results
  exact h.imp (fun hab => by simpa using hab)

/-- C8: calling the Context Agent when the Memory Store returned no matches
yields the empty sequence; the agent is a total function, so an empty store
never makes it (or its caller) fail. -/
theorem context_agent_empty : context_agent [] = [] := by
  simp [context_agent, List.mergeSort_nil]

/-- C10: the embedding wrapper replaces every newline in the input with a
space before the call, so the string actually embedded contains no newline
characters (and, e.g., `"a\nb"` is embedded as `"a b"`). -/
theorem get_ada_embedding_no_newline (text : String) :
    '\n' ∉ (get_ada_embedding text).data ∧ get_ada_embedding "a\nb" = "a b" := by
  constructor
  · intro hmem
    have hm : '\n' ∈ text.data.map (fun c => if c = '\n' then ' ' else c) := hmem
    rw [List.mem_map] at hm
    obtain ⟨c, -, hc⟩ := hm
    by_cases h' : c = '\n'
    · rw [if_pos h'] at hc
      exact absurd hc (by decide)
    · rw [if_neg h'] at hc
      exact h' hc
  · decide

/-- C3: across any number of main-loop iterations — each of which runs the
Prioritization Agent and replaces the queue — the ids assigned to appended
tasks come from the single process-wide counter: listed in assignment order
they are strictly increasing, hence never reused. -/
theorem task_ids_strictly_increasing (os : Nat → Oracle) (n : Nat)
    (s : LoopState) :
    (appendIds (runN os n s).1).Pairwise (· < ·) ∧
    (appendIds (runN os n s).1).Nodup := by
  obtain ⟨k, hk⟩ := runN_appendIds n os s
  rw [hk]
  exact ⟨List.pairwise_lt_range' _ _, List.nodup_range' _ _⟩

/-- C4: in a successful iteration the executed task is popped before the
execution result is computed, the result is stored before the Task Creation
Agent is invoked, and no task is appended before the storage step: the
trace up to the first `pop` holds no `execute`, and the trace up to the
first `store` holds no `create` and no `append`. -/
theorem loop_step_ordering (o : Oracle) (s : LoopState) (task : Task)
    (rest : List Task) (v : Int) (hq : s.task_list = task :: rest)
    (hid : task.task_id.toInt = some v) :
    Ev.pop ∈ (iterate o s).1 ∧
    Ev.execute ∉ (iterate o s).1.takeWhile (fun e => e != Ev.pop) ∧
    Ev.store ∈ (iterate o s).1 ∧
    Ev.create ∉ (iterate o s).1.takeWhile (fun e => e != Ev.store) ∧
    ((iterate o s).1.takeWhile (fun e => e != Ev.store)).all
      (fun e => ! e.isAppend) = true := by
  rw [iterate_cons_ok o s task rest v hq hid]
  refine ⟨?_, ?_, ?_, ?_, ?_⟩
  · exact List.mem_append_left _ (List.mem_append_left _ (by decide))
  · show Ev.execute ∉ ([] : List Ev)
    decide
  · exact List.mem_append_left _ (List.mem_append_left _ (by decide))
  · show Ev.create ∉ ([Ev.pop, Ev.execute] : List Ev)
    decide
  · show ([Ev.pop, Ev.execute] : List Ev).all (fun e => ! e.isAppend) = true
    decide

/-- C4 witness: the ordering facts hold concretely for the seed iteration. -/
theorem loop_step_ordering_witness :
    Ev.pop ∈ (iterate
      { execResponse := "Roses are red...", creationResponse := "a\nb",
        prioResponse := "2. b\n3. a" } (initialState "Draft first stanza")).1 ∧
    Ev.execute ∉ (iterate
      { execResponse := "Roses are red...", creationResponse := "a\nb",
        prioResponse := "2. b\n3. a" }
        (initialState "Draft first stanza")).1.takeWhile
      (fun e => e != Ev.pop) ∧
    Ev.store ∈ (iterate
      { execResponse := "Roses are red...", creationResponse := "a\nb",
        prioResponse := "2. b\n3. a" } (initialState "Draft first stanza")).1 ∧
    Ev.create ∉ (iterate
      { execResponse := "Roses are red...", creationResponse := "a\nb",
        prioResponse := "2. b\n3. a" }
        (initialState "Draft first stanza")).1.takeWhile
      (fun e => e != Ev.store) ∧
    ((iterate
      { execResponse := "Roses are red...", creationResponse := "a\nb",
        prioResponse := "2. b\n3. a" }
        (initialState "Draft first stanza")).1.takeWhile
      (fun e => e != Ev.store)).all (fun e => ! e.isAppend) = true :=
  loop_step_ordering
    { execResponse := "Roses are red...", creationResponse := "a\nb",
      prioResponse := "2. b\n3. a" }
    (initialState "Draft first stanza")
    { task_id := .ofInt 1, task_name := "Draft first stanza" } [] 1 rfl rfl

/-- C5: the result-storage call of a successful iteration upserts under the
id `"result_" ++ task_id` exactly, with metadata `{task, result}`; with
distinct store keys the store afterwards holds exactly one record under
that id — the new one — and when the id already existed the store size is
unchanged (overwrite, not duplicate). -/
theorem result_storage_upsert (o : Oracle) (s : LoopState) (task : Task)
    (rest : List Task) (v : Int) (s' : LoopState)
    (hq : s.task_list = task :: rest) (hid : task.task_id.toInt = some v)
    (hok : (iterate o s).2 = Except.ok s')
    (hnd : (s.store.map Prod.fst).Nodup) :
    s'.store = upsert s.store ("result_" ++ task.task_id.idStr)
      { vector := get_ada_embedding o.execResponse, task := task.task_name,
        result := o.execResponse } ∧
    s'.store.filter
        (fun q => decide (q.1 = "result_" ++ task.task_id.idStr)) =
      [("result_" ++ task.task_id.idStr,
        { vector := get_ada_embedding o.execResponse, task := task.task_name,
          result := o.execResponse })] ∧
    (s.store.any (fun q => decide (q.1 = "result_" ++ task.task_id.idStr)) =
        true →
      s'.store.length = s.store.length) := by
  rw [iterate_cons_ok o s task rest v hq hid] at hok
  cases hok
  refine ⟨rfl, ?_, ?_⟩
  · exact upsert_filter_eq s.store _ _ hnd
  · intro hpresent
    exact upsert_length_of_present s.store _ _ hpresent

/-- C5 witness: re-executing a task whose result id is already stored
overwrites the old record in place. -/
theorem result_storage_upsert_witness :
    ({ task_list := [], task_id_counter := 2,
       store := [("result_1",
         { vector := "Roses are red...", task := "Draft first stanza",
           result := "Roses are red..." })] } : LoopState).store =
      upsert [("result_1", { vector := "old", task := "t", result := "old" })]
        ("result_" ++ (TaskId.ofInt 1).idStr)
        { vector := get_ada_embedding "Roses are red...",
          task := "Draft first stanza", result := "Roses are red..." } ∧
    ({ task_list := [], task_id_counter := 2,
       store := [("result_1",
         { vector := "Roses are red...", task := "Draft first stanza",
           result := "Roses are red..." })] } : LoopState).store.filter
        (fun q => decide (q.1 = "result_" ++ (TaskId.ofInt 1).idStr)) =
      [("result_" ++ (TaskId.ofInt 1).idStr,
        { vector := get_ada_embedding "Roses are red...",
          task := "Draft first stanza", result := "Roses are red..." })] ∧
    (([("result_1", { vector := "old", task := "t", result := "old" })] :
        List (String × MemRecord)).any
        (fun q => decide (q.1 = "result_" ++ (TaskId.ofInt 1).idStr)) = true →
      ({ task_list := [], task_id_counter := 2,
         store := [("result_1",
           { vector := "Roses are red...", task := "Draft first stanza",
             result := "Roses are red..." })] } : LoopState).store.length =
        ([("result_1", { vector := "old", task := "t", result := "old" })] :
          List (String × MemRecord)).length) :=
  result_storage_upsert
    { execResponse := "Roses are red...", creationResponse := "",
      prioResponse := "" }
    { task_list := [{ task_id := .ofInt 1, task_name := "Draft first stanza" }],
      task_id_counter := 1,
      store := [("result_1", { vector := "old", task := "t", result := "old" })] }
    { task_id := .ofInt 1, task_name := "Draft first stanza" } [] 1
    { task_list := [], task_id_counter := 2,
      store := [("result_1",
        { vector := "Roses are red...", task := "Draft first stanza",
          result := "Roses are red..." })] }
    rfl rfl rfl (by decide)

/-- C6: with an empty queue the loop neither raises nor terminates nor pops:
every run of `n` further passes just sleeps `n` times, leaves the state
unchanged, and keeps polling — the trace is `n` sleeps and contains no pop. -/
theorem empty_queue_keeps_polling (s : LoopState) (h : s.task_list = [])
    (os : Nat → Oracle) (n : Nat) :
    runN os n s = (List.replicate n Ev.sleep, Except.ok s) ∧
    Ev.pop ∉ (runN os n s).1 := by
  have hmain : ∀ (m : Nat) (os' : Nat → Oracle),
      runN os' m s = (List.replicate m Ev.sleep, Except.ok s) := by
    intro m
    induction m with
    | zero => intro os'; rfl
    | succ m ih =>
      intro os'
      have hit := iterate_nil (os' 0) s h
      simp only [runN]
      rw [hit]
      rw [show (List.replicate (m + 1) Ev.sleep, Except.ok s) =
        (Ev.sleep :: List.replicate m Ev.sleep, Except.ok s) from
        by rw [List.replicate_succ]]
      show ([Ev.sleep] ++ (runN (fun i => os' (i + 1)) m s).1,
        (runN (fun i => os' (i + 1)) m s).2) = _
      rw [ih (fun i => os' (i + 1))]
      rfl
  refine ⟨hmain n os, ?_⟩
  rw [hmain n os]
  intro hmem
  have := List.eq_of_mem_replicate hmem
  cases this

/-- C6 witness: three polls on a concretely empty queue. -/
theorem empty_queue_keeps_polling_witness :
    runN (fun _ => (⟨"", "", ""⟩ : Oracle)) 3
      { task_list := [], task_id_counter := 1, store := [] } =
      (List.replicate 3 Ev.sleep,
        Except.ok { task_list := [], task_id_counter := 1, store := [] }) ∧
    Ev.pop ∉ (runN (fun _ => (⟨"", "", ""⟩ : Oracle)) 3
      { task_list := [], task_id_counter := 1, store := [] }).1 :=
  empty_queue_keeps_polling
    { task_list := [], task_id_counter := 1, store := [] } rfl
    (fun _ => (⟨"", "", ""⟩ : Oracle)) 3

/-- C9: when the popped task's id is a string `int(...)` cannot parse — as
the Prioritization Agent can produce, since it adopts whatever token the
model emitted — the iteration raises `ValueError` after the execution call
but before the storage step, so the result is never persisted: the trace
holds an `execute` and no `store`. -/
theorem unparseable_id_raises (o : Oracle) (s : LoopState) (task : Task)
    (rest : List Task) (hq : s.task_list = task :: rest)
    (hid : task.task_id.toInt = none) :
    (iterate o s).2 = Except.error PyError.valueError ∧
    Ev.execute ∈ (iterate o s).1 ∧
    Ev.store ∉ (iterate o s).1 := by
  rw [iterate_cons_err o s task rest hq hid]
  exact ⟨rfl, by decide, by decide⟩

/-- C9 witness: a queue produced by the Prioritization Agent from the
malformed line `"a). Clean the kitchen"` carries the unparseable id `"a)"`,
and the next iteration raises between execution and storage. -/
theorem unparseable_id_raises_witness :
    (iterate (⟨"r", "c", "p"⟩ : Oracle)
      { task_list := prioritization_agent "a). Clean the kitchen",
        task_id_counter := 3, store := [] }).2 =
      Except.error PyError.valueError ∧
    Ev.execute ∈ (iterate (⟨"r", "c", "p"⟩ : Oracle)
      { task_list := prioritization_agent "a). Clean the kitchen",
        task_id_counter := 3, store := [] }).1 ∧
    Ev.store ∉ (iterate (⟨"r", "c", "p"⟩ : Oracle)
      { task_list := prioritization_agent "a). Clean the kitchen",
        task_id_counter := 3, store := [] }).1 :=
  unparseable_id_raises (⟨"r", "c", "p"⟩ : Oracle)
    { task_list := prioritization_agent "a). Clean the kitchen",
      task_id_counter := 3, store := [] }
    { task_id := .ofStr "a)", task_name := "Clean the kitchen" } []
    (by decide) (by decide)

end BabyAGI
